import Mathlib

/-!
Verification development for the decision core of the ai-agent-honeypot
repository: the signal-fusion behavior analyzer (src/agent/behavior_analyzer.py),
the LLM call-admission gate (src/services/llm_load_control.py), the strategy
classifier (src/services/strategy_state.py) and the engagement finalizer
(src/services/engagement_policy.py), embedded over exact rationals.
-/

set_option allowUnsafeReducibility true
attribute [local semireducible] Rat.mul Rat.inv Rat.add Rat.sub Rat.div

namespace AgentHoneypot

/-- Python round-half-to-even of a rational to an integer (banker's rounding),
the rounding mode of Python's built-in round.  The fractional part
q - floor q is compared against 1/2 in integer arithmetic
(2*(q.num - floor q * q.den) against q.den) so the function evaluates by
plain reduction. -/
def roundHalfEven (q : ℚ) : ℤ :=
  if 2 * (q.num - Rat.floor q * (q.den : ℤ)) < (q.den : ℤ) then Rat.floor q
  else if (q.den : ℤ) < 2 * (q.num - Rat.floor q * (q.den : ℤ)) then Rat.floor q + 1
  else if Rat.floor q % 2 = 0 then Rat.floor q else Rat.floor q + 1

/-- Python round(x, 2) on exact rational values. -/
def pyRound2 (q : ℚ) : ℚ := Rat.divInt (roundHalfEven (q * 100)) 100

/-- Code-point lexicographic order on character lists, the order Python uses to
compare strings. -/
def lexLt : List Char → List Char → Bool
  | [], [] => false
  | [], _ :: _ => true
  | _ :: _, [] => false
  | a :: as, b :: bs =>
    if a.toNat < b.toNat then true
    else if b.toNat < a.toNat then false
    else lexLt as bs

def strLt (a b : String) : Bool := lexLt a.toList b.toList

def insertSorted (a : String) : List String → List String
  | [] => [a]
  | b :: bs => if strLt a b then a :: b :: bs else b :: insertSorted a bs

def sortStrings : List String → List String
  | [] => []
  | x :: xs => insertSorted x (sortStrings xs)

/-- Python sorted(set(xs)): the duplicate-free sorted image of a string list. -/
def sortedDedup (xs : List String) : List String := sortStrings xs.dedup

/-! Text search: an executable model of the six compiled regular expressions of
behavior_analyzer.py, over lists of characters.  All patterns carry the (?i)
flag, modelled by lowercasing haystack characters before comparison. -/

/-- Python regex word character (ASCII): letter, digit or underscore. -/
def isWordChar (c : Char) : Bool := c.isAlpha || c.isDigit || c == '_'

/-- Python regex whitespace (ASCII): space, tab, newline, carriage return,
form feed, vertical tab. -/
def isSpaceChar (c : Char) : Bool :=
  c == ' ' || c == '\t' || c == '\n' || c == '\r' || c == '\x0c' || c == '\x0b'

/-- True when the character just before the match position is absent or a
non-word character: the half of a \b boundary that looks left. -/
def nonWordOpt : Option Char → Bool
  | none => true
  | some c => !isWordChar c

/-- True when the first character after the match is absent or a non-word
character: the half of a \b boundary that looks right. -/
def boundaryAfter : List Char → Bool
  | [] => true
  | c :: _ => !isWordChar c

/-- Case-insensitive prefix test; the pattern is given lowercase. -/
def startsWithCI : List Char → List Char → Bool
  | [], _ => true
  | _ :: _, [] => false
  | p :: ps, h :: hs => (p == h.toLower) && startsWithCI ps hs

/-- Python str.strip(): drop leading and trailing whitespace. -/
def pyStrip (s : String) : String :=
  String.mk (((s.toList.dropWhile isSpaceChar).reverse.dropWhile isSpaceChar).reverse)

/-- Word-bounded case-insensitive phrase match at the head of hay, where prev
is the character immediately before hay in the full text. -/
def matchPhraseAt (phrase hay : List Char) (prev : Option Char) : Bool :=
  nonWordOpt prev && startsWithCI phrase hay && boundaryAfter (hay.drop phrase.length)

/-- Search for a word-bounded occurrence of any of the phrases: the regex
(?i)\b(p1|p2|...)\b applied with re.search. -/
def searchBounded (phrases : List (List Char)) : Option Char → List Char → Bool
  | _, [] => false
  | prev, c :: cs =>
    phrases.any (fun p => matchPhraseAt p (c :: cs) prev) || searchBounded phrases (some c) cs

/-- Consume one or more digits; none when the text does not start with a digit. -/
def dropDigitsRest : List Char → List Char
  | [] => []
  | c :: cs => if c.isDigit then dropDigitsRest cs else c :: cs

def dropDigits1 : List Char → Option (List Char)
  | [] => none
  | c :: cs => if c.isDigit then some (dropDigitsRest cs) else none

/-- Match (minute|minutes|hour|hours)\b at the head of the text. -/
def unitMatch (r : List Char) : Bool :=
  ["minute".toList, "minutes".toList, "hour".toList, "hours".toList].any
    (fun u => startsWithCI u r && boundaryAfter (r.drop u.length))

/-- Match \d+ (minute|minutes|hour|hours)\b at the head of the text. -/
def matchNumberUnit (rest : List Char) : Bool :=
  match dropDigits1 rest with
  | none => false
  | some r =>
    match r with
    | c :: r2 => c == ' ' && unitMatch r2
    | [] => false

/-- Match the regex alternative within \d+ (minute|minutes|hour|hours) with
word boundaries on both sides, at the head of hay. -/
def matchWithinAt (hay : List Char) (prev : Option Char) : Bool :=
  nonWordOpt prev && startsWithCI "within ".toList hay && matchNumberUnit (hay.drop 7)

def searchWithin : Option Char → List Char → Bool
  | _, [] => false
  | prev, c :: cs => matchWithinAt (c :: cs) prev || searchWithin (some c) cs

/-- URGENCY_PATTERN:
(?i)\b(urgent|immediately|right now|within \d+ (minute|minutes|hour|hours)|final warning|last warning)\b -/
def searchUrgency (hay : List Char) : Bool :=
  searchBounded
    ["urgent".toList, "immediately".toList, "right now".toList,
     "final warning".toList, "last warning".toList] none hay
  || searchWithin none hay

/-- AUTHORITY_PATTERN:
(?i)\b(bank|sbi|security team|fraud team|customs|police|rbi|compliance|official)\b -/
def searchAuthority (hay : List Char) : Bool :=
  searchBounded
    ["bank".toList, "sbi".toList, "security team".toList, "fraud team".toList,
     "customs".toList, "police".toList, "rbi".toList, "compliance".toList,
     "official".toList] none hay

/-- REWARD_PATTERN: (?i)\b(prize|lottery|reward|cashback|gift|bonus|offer)\b -/
def searchReward (hay : List Char) : Bool :=
  searchBounded
    ["prize".toList, "lottery".toList, "reward".toList, "cashback".toList,
     "gift".toList, "bonus".toList, "offer".toList] none hay

/-- VERIFY_PATTERN:
(?i)\b(verify|verification|otp|one time password|pin|upi pin|cvv|account number)\b -/
def searchVerify (hay : List Char) : Bool :=
  searchBounded
    ["verify".toList, "verification".toList, "otp".toList,
     "one time password".toList, "pin".toList, "upi pin".toList,
     "cvv".toList, "account number".toList] none hay

/-- ALT_CHANNEL_PATTERN: (?i)\b(call|whatsapp|telegram|email|contact)\b -/
def searchAltChannel (hay : List Char) : Bool :=
  searchBounded
    ["call".toList, "whatsapp".toList, "telegram".toList, "email".toList,
     "contact".toList] none hay

/-- Search for a word-bounded link/url/site/website occurrence after an action
word, where the gap consumed by .* may not contain a newline. -/
def searchTargetAfter : Option Char → List Char → Bool
  | _, [] => false
  | prev, c :: cs =>
    (["link".toList, "url".toList, "site".toList, "website".toList].any
       (fun t => matchPhraseAt t (c :: cs) prev))
    || (!(c == '\n') && searchTargetAfter (some c) cs)

/-- Match one action alternative of \b(click|open|tap|visit)\b.*\b(link|url|site|website)\b
at the head of hay. -/
def matchActionThenTarget (a hay : List Char) (prev : Option Char) : Bool :=
  matchPhraseAt a hay prev
    && searchTargetAfter ((hay.drop (a.length - 1)).head?) (hay.drop a.length)

def searchActionTarget : Option Char → List Char → Bool
  | _, [] => false
  | prev, c :: cs =>
    (["click".toList, "open".toList, "tap".toList, "visit".toList].any
       (fun a => matchActionThenTarget a (c :: cs) prev))
    || searchActionTarget (some c) cs

/-- Match \bhttps?://\S+ at the head of hay. -/
def matchHttpAt (hay : List Char) (prev : Option Char) : Bool :=
  nonWordOpt prev && startsWithCI "http".toList hay &&
  (let r := hay.drop 4
   let r2 := match r with
             | c :: cs => if c.toLower == 's' then cs else r
             | [] => r
   match r2 with
   | ':' :: '/' :: '/' :: x :: _ => !isSpaceChar x
   | _ => false)

def searchHttp : Option Char → List Char → Bool
  | _, [] => false
  | prev, c :: cs => matchHttpAt (c :: cs) prev || searchHttp (some c) cs

/-- Match www\.\S+ at the head of hay (no word boundary in the source regex). -/
def matchWwwAt (hay : List Char) : Bool :=
  startsWithCI "www.".toList hay &&
  (match hay.drop 4 with
   | x :: _ => !isSpaceChar x
   | [] => false)

def searchWww : List Char → Bool
  | [] => false
  | c :: cs => matchWwwAt (c :: cs) || searchWww cs

/-- LINK_PRESSURE_PATTERN:
(?i)\b(click|open|tap|visit)\b.*\b(link|url|site|website)\b|\bhttps?://\S+|www\.\S+ -/
def searchLinkPressure (hay : List Char) : Bool :=
  searchActionTarget none hay || searchHttp none hay || searchWww hay

/-! The BehavioralAnalysisResult value type and the rule evaluator
(BehaviorAnalyzer._rule_based_analysis). -/

structure BehavioralAnalysisResult where
  score : ℚ
  confidence : ℚ
  indicators : List String
  category_hint : Option String
deriving DecidableEq

/-- Total rule score: one fixed weight per matched pattern family. -/
def ruleScore (text : String) : ℚ :=
  (if searchUrgency text.toList then 2 else 0)
  + (if searchAuthority text.toList then 2 else 0)
  + (if searchReward text.toList then 3/2 else 0)
  + (if searchVerify text.toList then 5/2 else 0)
  + (if searchLinkPressure text.toList then 2 else 0)
  + (if searchAltChannel text.toList then 1 else 0)

/-- Indicator tags appended by the rule evaluator, in source order. -/
def ruleIndicators (text : String) : List String :=
  (if searchUrgency text.toList then ["urgency"] else [])
  ++ (if searchAuthority text.toList then ["authority_impersonation"] else [])
  ++ (if searchReward text.toList then ["reward_bait"] else [])
  ++ (if searchVerify text.toList then ["verification_or_secret_request"] else [])
  ++ (if searchLinkPressure text.toList then ["external_link_pressure"] else [])
  ++ (if searchAltChannel text.toList then ["alternate_channel_push"] else [])

/-- Category inference priority chain of _rule_based_analysis. -/
def ruleCategory (indicators : List String) : Option String :=
  if "reward_bait" ∈ indicators then some "LOTTERY_SCAM"
  else if "external_link_pressure" ∈ indicators then some "PHISHING"
  else if "verification_or_secret_request" ∈ indicators ∧ "authority_impersonation" ∈ indicators
    then some "BANK_FRAUD"
  else none

/-- BehaviorAnalyzer._rule_based_analysis. -/
def ruleBasedAnalysis (text : String) : BehavioralAnalysisResult :=
  if text = "" then ⟨0, 0, [], none⟩
  else
    { score := pyRound2 (min 10 (ruleScore text))
      confidence := pyRound2 (min 1 (ruleScore text / 8))
      indicators := sortedDedup (ruleIndicators text)
      category_hint := ruleCategory (ruleIndicators text) }

/-! The judgment-provider side (BehaviorAnalyzer._llm_analysis) and fusion
(BehaviorAnalyzer.analyze). -/

/-- Parsed judgment payload fields, after extract_json_object returned a dict.
riskScore and confidence hold the outcome of float(payload.get(key, 0.0)):
none models a float() coercion failure (TypeError or ValueError), some q the
coerced number (a missing key defaults to some 0).  indicators models the
payload's indicator list (a missing or non-list value collapses to []). -/
structure JudgmentPayload where
  riskScore : Option ℚ
  confidence : Option ℚ
  indicators : List String
  categoryHint : Option String
deriving DecidableEq

/-- Modelled from the spec: the judgment provider capability (OpenAIClient and
GeminiClient live in agent/llm_clients.py, outside the analyzed sources).
api_key is the credential string, checked for Python truthiness (non-empty).
judgment is the end-to-end outcome of one chat call composed with
extract_json_object: some payload when the provider returned text parsing to a
JSON object, none when it yielded no usable response; per the spec, the
secondary provider is consulted exactly when the primary yields no usable
response. -/
structure ProviderClient where
  api_key : String
  judgment : Option JudgmentPayload
deriving DecidableEq

def credentialed : Option ProviderClient → Bool
  | none => false
  | some c => !(c.api_key == "")

/-- Provider selection order of _llm_analysis: primary (openai) first, the
secondary (gemini) when the primary yields nothing usable. -/
def pickJudgment (openai gemini : Option ProviderClient) : Option JudgmentPayload :=
  let raw1 : Option JudgmentPayload :=
    match openai with
    | some c => if c.api_key = "" then none else c.judgment
    | none => none
  match raw1 with
  | some p => some p
  | none =>
    match gemini with
    | some c => if c.api_key = "" then none else c.judgment
    | none => none

/-- Tail of _llm_analysis: numeric coercion, clamping and rounding, indicator
strip-and-filter, category-hint truthiness normalisation. -/
def mkJudgmentResult (p : JudgmentPayload) : Option BehavioralAnalysisResult :=
  match p.riskScore, p.confidence with
  | some sc, some cf =>
    some { score := pyRound2 (max 0 (min 10 sc))
           confidence := pyRound2 (max 0 (min 1 cf))
           indicators := sortedDedup ((p.indicators.map pyStrip).filter (fun s => !(s == "")))
           category_hint :=
             match p.categoryHint with
             | none => none
             | some s => if s = "" then none else some (pyStrip s) }
  | _, _ => none

/-- BehaviorAnalyzer._llm_analysis. -/
def llmAnalysis (text : String) (openai gemini : Option ProviderClient) :
    Option BehavioralAnalysisResult :=
  if text = "" then none
  else if !(credentialed openai || credentialed gemini) then none
  else
    match pickJudgment openai gemini with
    | none => none
    | some p => mkJudgmentResult p

/-- Python x or y on optional strings: y when x is None or the empty string. -/
def pyOrStr : Option String → Option String → Option String
  | some s, b => if s = "" then b else some s
  | none, b => b

/-- BehaviorAnalyzer.analyze: rule evaluation, optional judgment, fusion. -/
def analyze (text : String) (openai gemini : Option ProviderClient) :
    BehavioralAnalysisResult :=
  match llmAnalysis text openai gemini with
  | none => ruleBasedAnalysis text
  | some llmResult =>
    { score := pyRound2 (min 10 ((ruleBasedAnalysis text).score * (6/10) + llmResult.score * (4/10)))
      confidence := pyRound2 (min 1 (max (ruleBasedAnalysis text).confidence llmResult.confidence))
      indicators := sortedDedup ((ruleBasedAnalysis text).indicators ++ llmResult.indicators)
      category_hint := pyOrStr llmResult.category_hint (ruleBasedAnalysis text).category_hint }

/-- Fixed six-tag indicator vocabulary of the spec's glossary. -/
def indicatorVocabulary : List String :=
  ["urgency", "authority_impersonation", "reward_bait",
   "verification_or_secret_request", "external_link_pressure",
   "alternate_channel_push"]

/-- Well-formedness invariant claimed for every analysis result. -/
def resultWellFormed (r : BehavioralAnalysisResult) : Prop :=
  0 ≤ r.score ∧ r.score ≤ 10 ∧ 0 ≤ r.confidence ∧ r.confidence ≤ 1 ∧ r.indicators.Nodup

/-! Embedding of src/services/llm_load_control.py: the LLMCallGate.  Wall-clock
timestamps (time.time()) become explicit rational parameters. -/

/-- Known gate stages; LLMCallGate._stage_limits has exactly these keys. -/
inductive Stage where
  | reply
  | behavior
  | extraction
deriving DecidableEq

/-- Stage-string lookup: models membership of stage in the _stage_limits dict. -/
def parseStage (s : String) : Option Stage :=
  if s = "reply" then some Stage.reply
  else if s = "behavior" then some Stage.behavior
  else if s = "extraction" then some Stage.extraction
  else none

/-- Mutable state of one LLMCallGate instance.  The deques of timestamps become
lists (append at the tail, popleft at the head). -/
structure GateState where
  enabled : Bool
  global_limit : ℕ
  reply_limit : ℕ
  behavior_limit : ℕ
  extraction_limit : ℕ
  behavior_sample_n : ℕ
  calls_global : List ℚ
  calls_reply : List ℚ
  calls_behavior : List ℚ
  calls_extraction : List ℚ
  dropped_reply : ℕ
  dropped_behavior : ℕ
  dropped_extraction : ℕ
deriving DecidableEq

/-- LLMCallGate.__init__: non-positive configuration values coerce up to 1,
all queues start empty and all drop counters at zero. -/
def initGate (enabled : Bool) (globalRpm replyRpm behaviorRpm extractionRpm sampleN : ℤ) :
    GateState :=
  { enabled := enabled
    global_limit := (max 1 globalRpm).toNat
    reply_limit := (max 1 replyRpm).toNat
    behavior_limit := (max 1 behaviorRpm).toNat
    extraction_limit := (max 1 extractionRpm).toNat
    behavior_sample_n := (max 1 sampleN).toNat
    calls_global := []
    calls_reply := []
    calls_behavior := []
    calls_extraction := []
    dropped_reply := 0
    dropped_behavior := 0
    dropped_extraction := 0 }

def stageCalls (g : GateState) : Stage → List ℚ
  | Stage.reply => g.calls_reply
  | Stage.behavior => g.calls_behavior
  | Stage.extraction => g.calls_extraction

def withStageCalls (g : GateState) : Stage → List ℚ → GateState
  | Stage.reply, q => { g with calls_reply := q }
  | Stage.behavior, q => { g with calls_behavior := q }
  | Stage.extraction, q => { g with calls_extraction := q }

def stageLimitOf (g : GateState) : Stage → ℕ
  | Stage.reply => g.reply_limit
  | Stage.behavior => g.behavior_limit
  | Stage.extraction => g.extraction_limit

def bumpDrop (g : GateState) : Stage → GateState
  | Stage.reply => { g with dropped_reply := g.dropped_reply + 1 }
  | Stage.behavior => { g with dropped_behavior := g.dropped_behavior + 1 }
  | Stage.extraction => { g with dropped_extraction := g.dropped_extraction + 1 }

def droppedOf (g : GateState) : Stage → ℕ
  | Stage.reply => g.dropped_reply
  | Stage.behavior => g.dropped_behavior
  | Stage.extraction => g.dropped_extraction

/-- LLMCallGate._prune: pop timestamps strictly older than the cutoff from the
front of a queue. -/
def pruneQ (q : List ℚ) (cutoff : ℚ) : List ℚ :=
  q.dropWhile (fun x => decide (x < cutoff))

/-- LLMCallGate._behavior_sampling_allows, on the already clamped index. -/
def behaviorSamplingAllows (n idx : ℕ) : Bool :=
  if n ≤ 1 then true
  else if idx ≤ 1 then true
  else (idx - 1) % n == 0

/-- LLMCallGate.allow: pre-filters (unknown stage, disabled gate, behavior
sampling), then the pruned sliding-window admission check under the lock. -/
def LLMCallGate.allow (g : GateState) (stage : String) (idx : ℤ) (now : ℚ) :
    Bool × GateState :=
  match parseStage stage with
  | none => (false, g)
  | some st =>
    if g.enabled = false then (true, g)
    else if st = Stage.behavior ∧ behaviorSamplingAllows g.behavior_sample_n (max 0 idx).toNat = false
      then (false, g)
    else
      let cutoff := now - 60
      let gq := pruneQ g.calls_global cutoff
      let sq := pruneQ (stageCalls g st) cutoff
      let g1 := withStageCalls { g with calls_global := gq } st sq
      if g.global_limit ≤ gq.length then (false, bumpDrop g1 st)
      else if stageLimitOf g st ≤ sq.length then (false, bumpDrop g1 st)
      else (true, withStageCalls { g with calls_global := gq ++ [now] } st (sq ++ [now]))

/-- LLMGateSnapshot: limits, in-window counts and drop counters become one
field per dict key. -/
structure LLMGateSnapshot where
  enabled : Bool
  limit_global : ℕ
  limit_reply : ℕ
  limit_behavior : ℕ
  limit_extraction : ℕ
  in_window_global : ℕ
  in_window_reply : ℕ
  in_window_behavior : ℕ
  in_window_extraction : ℕ
  dropped_reply : ℕ
  dropped_behavior : ℕ
  dropped_extraction : ℕ
deriving DecidableEq

/-- LLMCallGate.snapshot: prune every queue at the current cutoff, then report
the view; the pruning mutates the gate, so the new state is returned too. -/
def LLMCallGate.snapshot (g : GateState) (now : ℚ) : LLMGateSnapshot × GateState :=
  let cutoff := now - 60
  let g' : GateState :=
    { g with calls_global := pruneQ g.calls_global cutoff
             calls_reply := pruneQ g.calls_reply cutoff
             calls_behavior := pruneQ g.calls_behavior cutoff
             calls_extraction := pruneQ g.calls_extraction cutoff }
  (⟨g'.enabled, g'.global_limit, g'.reply_limit, g'.behavior_limit, g'.extraction_limit,
    g'.calls_global.length, g'.calls_reply.length, g'.calls_behavior.length,
    g'.calls_extraction.length,
    g'.dropped_reply, g'.dropped_behavior, g'.dropped_extraction⟩, g')

/-! Trace machinery for the gate: sequences of allow and snapshot calls with
explicit timestamps. -/

inductive GateOp where
  | allowOp (stage : String) (idx : ℤ) (t : ℚ)
  | snapOp (t : ℚ)
deriving DecidableEq

def GateOp.time : GateOp → ℚ
  | GateOp.allowOp _ _ t => t
  | GateOp.snapOp t => t

def runOp (g : GateState) : GateOp → GateState
  | GateOp.allowOp s i t => (LLMCallGate.allow g s i t).2
  | GateOp.snapOp t => (LLMCallGate.snapshot g t).2

def runOps (g : GateState) : List GateOp → GateState
  | [] => g
  | op :: rest => runOps (runOp g op) rest

/-- Number of timestamps in a queue at or after the cutoff. -/
def aliveCount (l : List ℚ) (c : ℚ) : ℕ :=
  (l.filter (fun x => decide (c ≤ x))).length

/-- Queue sanity at time t: sorted, with every timestamp at most t. -/
def QOk (l : List ℚ) (t : ℚ) : Prop :=
  List.Sorted (· ≤ ·) l ∧ ∀ x ∈ l, x ≤ t

/-- Gate invariant at time t: all queues sane, and for every cutoff the window
could still use, the global alive count is the sum of the stage alive counts. -/
def GateInv (g : GateState) (t : ℚ) : Prop :=
  QOk g.calls_global t ∧ QOk g.calls_reply t ∧ QOk g.calls_behavior t ∧
  QOk g.calls_extraction t ∧
  ∀ c : ℚ, t - 60 ≤ c →
    aliveCount g.calls_global c =
      aliveCount g.calls_reply c + aliveCount g.calls_behavior c +
        aliveCount g.calls_extraction c

/-- Timestamps of a trace are non-decreasing and start at or after t. -/
def timesFrom (t : ℚ) : List GateOp → Prop
  | [] => True
  | op :: rest => t ≤ op.time ∧ timesFrom op.time rest

/-- Time of the last operation of a trace, defaulting to t. -/
def endTime (t : ℚ) : List GateOp → ℚ
  | [] => t
  | op :: rest => endTime op.time rest

/-! Embedding of src/services/strategy_state.py and
src/services/engagement_policy.py, over the session-record read view. -/

/-- Read view of the detected-intelligence record consumed by this core. -/
structure IntelRecord where
  actionable_category_count : ℕ
  has_high_value : Bool
  upi_ids : List String
  crypto_wallets : List String
deriving DecidableEq

/-- Read view of the session aggregates consumed by this core. -/
structure SessionState where
  finalized : Bool
  scam_detected : Bool
  first_scam_timestamp : Option ℚ
  scammer_messages : ℕ
  agent_turns : ℕ
  rolling_scam_score : ℚ
  intel : IntelRecord
deriving DecidableEq

/-- Python int() truncation toward zero on a rational: T-division of the
numerator by the (positive) denominator. -/
def pyTrunc (q : ℚ) : ℤ := Int.tdiv q.num (q.den : ℤ)

/-- should_finalize of engagement_policy.py; time.time() becomes the explicit
now parameter. -/
def should_finalize (state : SessionState) (now : ℚ) : Bool :=
  if state.finalized = true ∨ state.scam_detected = false then false
  else
    let actionable := state.intel.actionable_category_count
    let hasPaymentId : Bool := !(state.intel.upi_ids.isEmpty && state.intel.crypto_wallets.isEmpty)
    let elapsed : ℤ :=
      match state.first_scam_timestamp with
      | none => 0
      | some ts => pyTrunc (now - ts)
    let totalMessages := state.scammer_messages + state.agent_turns
    if 12 ≤ state.agent_turns then true
    else if hasPaymentId = true ∧ 2 ≤ actionable ∧ 5 ≤ state.agent_turns ∧
        10 ≤ totalMessages ∧ 60 ≤ elapsed then true
    else if 3 ≤ actionable ∧ 10 ≤ state.agent_turns ∧ 60 ≤ elapsed then true
    else if 12 ≤ state.scammer_messages ∧ 10 ≤ state.agent_turns ∧ 60 ≤ elapsed then true
    else false

def STRATEGY_NEUTRAL : String := "Neutral"
def STRATEGY_SUSPICIOUS : String := "Suspicious"
def STRATEGY_EXTRACTION_MODE : String := "Extraction Mode"
def STRATEGY_HIGH_CONFIDENCE : String := "High Confidence Scam"
def STRATEGY_HARVEST_MODE : String := "Intelligence Harvest Mode"

/-- infer_strategy_state of strategy_state.py: optional overrides default to
the session-record fields. -/
def infer_strategy_state (state : SessionState) (rolling_score : Option ℚ)
    (scam_detected : Option Bool) (actionable_count : Option ℕ)
    (agent_turns : Option ℕ) : String :=
  let score := rolling_score.getD state.rolling_scam_score
  let actionable := actionable_count.getD state.intel.actionable_category_count
  let detected := scam_detected.getD state.scam_detected
  let turns := agent_turns.getD state.agent_turns
  if score < 3 ∧ detected = false then STRATEGY_NEUTRAL
  else if score < 6 ∧ detected = false then STRATEGY_SUSPICIOUS
  else if score < 10 then STRATEGY_EXTRACTION_MODE
  else if 3 ≤ actionable ∨ 5 ≤ turns then STRATEGY_HARVEST_MODE
  else STRATEGY_HIGH_CONFIDENCE

/-- Rank of a strategy tier in the spec's aggressiveness order. -/
def strategyRank (s : String) : ℕ :=
  if s = STRATEGY_NEUTRAL then 0
  else if s = STRATEGY_SUSPICIOUS then 1
  else if s = STRATEGY_EXTRACTION_MODE then 2
  else if s = STRATEGY_HARVEST_MODE then 3
  else 4

/-- Exact rational at two decimal places. -/
def TwoDp (q : ℚ) : Prop := ∃ n : ℤ, q * 100 = (n : ℚ)

/-! Concrete example inputs used when instantiating the claim theorems. -/

def c4Text : String :=
  "URGENT: Your SBI account is blocked. Verify your UPI PIN immediately by clicking http://example.com"

def examplePayloadC2 : JudgmentPayload := ⟨some 5, some (1/2), ["urgency"], some "PHISHING"⟩

def exampleProviderC2 : ProviderClient := ⟨"key", some examplePayloadC2⟩

def exampleJudgmentC2 : BehavioralAnalysisResult := ⟨5, 1/2, ["urgency"], some "PHISHING"⟩

def examplePayloadC5 : JudgmentPayload := ⟨some 0, some 0, ["bogus_tag"], none⟩

def exampleProviderC5 : ProviderClient := ⟨"key", some examplePayloadC5⟩

def exampleJudgmentC5 : BehavioralAnalysisResult := ⟨0, 0, ["bogus_tag"], none⟩

/-- An enabled gate whose global window is already full (ceiling 1, one
admitted timestamp at 0), with behavior sampling interval 3. -/
def exampleGateC3 : GateState :=
  { enabled := true
    global_limit := 1
    reply_limit := 1
    behavior_limit := 1
    extraction_limit := 1
    behavior_sample_n := 3
    calls_global := [0]
    calls_reply := [0]
    calls_behavior := []
    calls_extraction := []
    dropped_reply := 0
    dropped_behavior := 0
    dropped_extraction := 0 }

/-- An enabled gate with behavior sampling interval 3 and empty queues. -/
def exampleGateC6 : GateState := initGate true 100 10 10 10 3

def exampleIntel : IntelRecord := ⟨0, false, [], []⟩

def exampleSessionC7 : SessionState := ⟨false, false, none, 0, 0, 0, exampleIntel⟩

def exampleSessionC8 : SessionState := ⟨false, true, none, 0, 12, 0, ⟨0, false, [], []⟩⟩

def exampleOpsC10 : List GateOp :=
  [GateOp.allowOp "reply" 0 0, GateOp.allowOp "behavior" 1 5,
   GateOp.snapOp 10, GateOp.allowOp "extraction" 0 20]

/-! Rounding lemmas. -/

theorem ratFloor_eq_floor (q : ℚ) : Rat.floor q = ⌊q⌋ := by
  rw [Rat.floor_def', Rat.floor_def]

theorem sub_int_lt_iff (q : ℚ) (f : ℤ) (r : ℚ) :
    ((q.num - f * q.den : ℤ) : ℚ) < r * (q.den : ℚ) ↔ q - (f : ℚ) < r := by
  have hd : (0 : ℚ) < (q.den : ℚ) := by exact_mod_cast q.pos
  have hqd : q * (q.den : ℚ) = (q.num : ℚ) := by
    nth_rewrite 1 [← Rat.num_div_den q]
    exact div_mul_cancel₀ _ (ne_of_gt hd)
  constructor
  · intro h
    push_cast at h
    nlinarith [h, hqd, hd]
  · intro h
    have h2 := mul_lt_mul_of_pos_right h hd
    push_cast
    nlinarith [h2, hqd]

theorem int_lt_sub_iff (q : ℚ) (f : ℤ) (r : ℚ) :
    r * (q.den : ℚ) < ((q.num - f * q.den : ℤ) : ℚ) ↔ r < q - (f : ℚ) := by
  have hd : (0 : ℚ) < (q.den : ℚ) := by exact_mod_cast q.pos
  have hqd : q * (q.den : ℚ) = (q.num : ℚ) := by
    nth_rewrite 1 [← Rat.num_div_den q]
    exact div_mul_cancel₀ _ (ne_of_gt hd)
  constructor
  · intro h
    push_cast at h
    nlinarith [h, hqd, hd]
  · intro h
    have h2 := mul_lt_mul_of_pos_right h hd
    push_cast
    nlinarith [h2, hqd]

theorem frac_lt_half_iff (q : ℚ) (f : ℤ) :
    2 * (q.num - f * q.den) < (q.den : ℤ) ↔ q - (f : ℚ) < 1/2 := by
  rw [← sub_int_lt_iff q f (1/2)]
  constructor <;> intro h
  · have h' : ((2 * (q.num - f * q.den) : ℤ) : ℚ) < ((q.den : ℤ) : ℚ) := by exact_mod_cast h
    push_cast at h' ⊢
    linarith
  · have h' : ((q.num - f * q.den : ℤ) : ℚ) < 1/2 * (q.den : ℚ) := h
    have h2 : ((2 * (q.num - f * q.den) : ℤ) : ℚ) < ((q.den : ℤ) : ℚ) := by
      push_cast at h' ⊢
      linarith
    exact_mod_cast h2

theorem half_lt_frac_iff (q : ℚ) (f : ℤ) :
    (q.den : ℤ) < 2 * (q.num - f * q.den) ↔ (1 : ℚ)/2 < q - (f : ℚ) := by
  rw [← int_lt_sub_iff q f (1/2)]
  constructor <;> intro h
  · have h' : ((q.den : ℤ) : ℚ) < ((2 * (q.num - f * q.den) : ℤ) : ℚ) := by exact_mod_cast h
    push_cast at h' ⊢
    linarith
  · have h' : (1/2 : ℚ) * (q.den : ℚ) < ((q.num - f * q.den : ℤ) : ℚ) := h
    have h2 : ((q.den : ℤ) : ℚ) < ((2 * (q.num - f * q.den) : ℤ) : ℚ) := by
      push_cast at h' ⊢
      linarith
    exact_mod_cast h2

theorem roundHalfEven_eq (q : ℚ) :
    roundHalfEven q =
      if q - (⌊q⌋ : ℚ) < 1/2 then ⌊q⌋
      else if (1 : ℚ)/2 < q - (⌊q⌋ : ℚ) then ⌊q⌋ + 1
      else if ⌊q⌋ % 2 = 0 then ⌊q⌋ else ⌊q⌋ + 1 := by
  unfold roundHalfEven
  rw [ratFloor_eq_floor]
  rw [if_congr (frac_lt_half_iff q ⌊q⌋) rfl
    (if_congr (half_lt_frac_iff q ⌊q⌋) rfl rfl)]

theorem pyRound2_eq (q : ℚ) : pyRound2 q = ((roundHalfEven (q * 100) : ℤ) : ℚ) / 100 := by
  unfold pyRound2
  rw [Rat.divInt_eq_div]
  norm_num

theorem roundHalfEven_le (q : ℚ) (b : ℤ) (h : q ≤ (b : ℚ)) : roundHalfEven q ≤ b := by
  have hfb : ⌊q⌋ ≤ b := by
    have h1 := Int.floor_le_floor h
    simpa using h1
  rw [roundHalfEven_eq]
  split_ifs with h1 h2 h3
  · exact hfb
  all_goals try exact hfb
  all_goals {
    have hq : (⌊q⌋ : ℚ) < q := by push_neg at h1; linarith
    have hlt : (⌊q⌋ : ℚ) < (b : ℚ) := lt_of_lt_of_le hq h
    have : ⌊q⌋ < b := by exact_mod_cast hlt
    omega }

theorem le_roundHalfEven (q : ℚ) (b : ℤ) (h : (b : ℚ) ≤ q) : b ≤ roundHalfEven q := by
  have hb : b ≤ ⌊q⌋ := Int.le_floor.mpr h
  rw [roundHalfEven_eq]
  split_ifs <;> omega

theorem roundHalfEven_intCast (n : ℤ) : roundHalfEven (n : ℚ) = n := by
  rw [roundHalfEven_eq]
  rw [Int.floor_intCast]
  norm_num

theorem pyRound2_le (q : ℚ) (b : ℤ) (h : q ≤ (b : ℚ)) : pyRound2 q ≤ (b : ℚ) := by
  rw [pyRound2_eq]
  rw [div_le_iff (by norm_num : (0 : ℚ) < 100)]
  have h' : q * 100 ≤ ((b * 100 : ℤ) : ℚ) := by
    push_cast
    nlinarith
  have h2 := roundHalfEven_le (q * 100) (b * 100) h'
  calc (roundHalfEven (q * 100) : ℚ) ≤ ((b * 100 : ℤ) : ℚ) := by exact_mod_cast h2
    _ = (b : ℚ) * 100 := by push_cast; ring

theorem le_pyRound2 (q : ℚ) (b : ℤ) (h : (b : ℚ) ≤ q) : (b : ℚ) ≤ pyRound2 q := by
  rw [pyRound2_eq]
  rw [le_div_iff (by norm_num : (0 : ℚ) < 100)]
  have h' : ((b * 100 : ℤ) : ℚ) ≤ q * 100 := by
    push_cast
    nlinarith
  have h2 := le_roundHalfEven (q * 100) (b * 100) h'
  calc (b : ℚ) * 100 = ((b * 100 : ℤ) : ℚ) := by push_cast; ring
    _ ≤ (roundHalfEven (q * 100) : ℚ) := by exact_mod_cast h2

theorem pyRound2_nonneg {q : ℚ} (h : 0 ≤ q) : 0 ≤ pyRound2 q := by
  have h2 := le_pyRound2 q 0 (by exact_mod_cast h)
  exact_mod_cast h2

theorem pyRound2_le_ten {q : ℚ} (h : q ≤ 10) : pyRound2 q ≤ 10 := by
  have h2 := pyRound2_le q 10 (by exact_mod_cast h)
  exact_mod_cast h2

theorem pyRound2_le_one {q : ℚ} (h : q ≤ 1) : pyRound2 q ≤ 1 := by
  have h2 := pyRound2_le q 1 (by exact_mod_cast h)
  exact_mod_cast h2

theorem twoDp_pyRound2 (q : ℚ) : TwoDp (pyRound2 q) := by
  refine ⟨roundHalfEven (q * 100), ?_⟩
  rw [pyRound2_eq]
  field_simp

theorem pyRound2_of_twoDp {q : ℚ} (h : TwoDp q) : pyRound2 q = q := by
  obtain ⟨n, hn⟩ := h
  rw [pyRound2_eq, hn, roundHalfEven_intCast, ← hn]
  ring

theorem twoDp_zero : TwoDp 0 := ⟨0, by norm_num⟩

theorem twoDp_max {a b : ℚ} (ha : TwoDp a) (hb : TwoDp b) : TwoDp (max a b) := by
  rcases max_choice a b with h | h <;> rw [h] <;> assumption

/-! Sorting and deduplication lemmas. -/

theorem insertSorted_perm (a : String) (l : List String) :
    List.Perm (insertSorted a l) (a :: l) := by
  induction l with
  | nil => exact List.Perm.refl _
  | cons b bs ih =>
    unfold insertSorted
    split
    · exact List.Perm.refl _
    · exact (ih.cons b).trans (List.Perm.swap a b bs)

theorem sortStrings_perm (l : List String) : List.Perm (sortStrings l) l := by
  induction l with
  | nil => exact List.Perm.refl _
  | cons x xs ih => exact (insertSorted_perm x (sortStrings xs)).trans (ih.cons x)

theorem sortedDedup_perm (xs : List String) : List.Perm (sortedDedup xs) xs.dedup :=
  sortStrings_perm _

theorem mem_sortedDedup {x : String} {xs : List String} : x ∈ sortedDedup xs ↔ x ∈ xs := by
  rw [(sortedDedup_perm xs).mem_iff, List.mem_dedup]

theorem nodup_sortedDedup (xs : List String) : (sortedDedup xs).Nodup :=
  (sortedDedup_perm xs).nodup_iff.mpr (List.nodup_dedup xs)

/-! Behavior-analyzer lemmas. -/

theorem ruleScore_nonneg (text : String) : 0 ≤ ruleScore text := by
  unfold ruleScore
  split_ifs <;> norm_num

theorem ruleBasedAnalysis_wf (text : String) : resultWellFormed (ruleBasedAnalysis text) := by
  unfold ruleBasedAnalysis resultWellFormed
  split_ifs with h
  · simp
  · have hs := ruleScore_nonneg text
    refine ⟨?_, ?_, ?_, ?_, ?_⟩
    · exact pyRound2_nonneg (le_min (by norm_num) hs)
    · exact pyRound2_le_ten (min_le_left _ _)
    · exact pyRound2_nonneg (le_min (by norm_num) (by positivity))
    · exact pyRound2_le_one (min_le_left _ _)
    · exact nodup_sortedDedup _

theorem ruleBasedAnalysis_conf_twoDp (text : String) :
    TwoDp (ruleBasedAnalysis text).confidence := by
  unfold ruleBasedAnalysis
  split_ifs
  · exact twoDp_zero
  · exact twoDp_pyRound2 _

theorem mkJudgmentResult_eq {p : JudgmentPayload} {j : BehavioralAnalysisResult}
    (h : mkJudgmentResult p = some j) :
    ∃ sc cf, p.riskScore = some sc ∧ p.confidence = some cf ∧
      j = { score := pyRound2 (max 0 (min 10 sc))
            confidence := pyRound2 (max 0 (min 1 cf))
            indicators := sortedDedup ((p.indicators.map pyStrip).filter (fun s => !(s == "")))
            category_hint := match p.categoryHint with
                             | none => none
                             | some s => if s = "" then none else some (pyStrip s) } := by
  unfold mkJudgmentResult at h
  rcases hr : p.riskScore with _ | sc <;> rcases hc : p.confidence with _ | cf <;>
      rw [hr, hc] at h <;> simp only [Option.some.injEq] at h
  · exact absurd h (by simp)
  · exact absurd h (by simp)
  · exact absurd h (by simp)
  · exact ⟨sc, cf, rfl, rfl, h.symm⟩

theorem llmAnalysis_some_shape {text : String} {o g : Option ProviderClient}
    {j : BehavioralAnalysisResult} (h : llmAnalysis text o g = some j) :
    ∃ p, mkJudgmentResult p = some j := by
  unfold llmAnalysis at h
  split_ifs at h
  rcases hp : pickJudgment o g with _ | p <;> rw [hp] at h
  · exact absurd h (by simp)
  · exact ⟨p, h⟩

theorem llmAnalysis_wf {text : String} {o g : Option ProviderClient}
    {j : BehavioralAnalysisResult} (h : llmAnalysis text o g = some j) :
    0 ≤ j.score ∧ j.score ≤ 10 ∧ 0 ≤ j.confidence ∧ j.confidence ≤ 1 ∧
      TwoDp j.confidence ∧ j.indicators.Nodup := by
  obtain ⟨p, hp⟩ := llmAnalysis_some_shape h
  obtain ⟨sc, cf, _, _, hj⟩ := mkJudgmentResult_eq hp
  subst hj
  refine ⟨?_, ?_, ?_, ?_, ?_, ?_⟩
  · exact pyRound2_nonneg (le_max_left _ _)
  · exact pyRound2_le_ten (max_le (by norm_num) (min_le_left _ _))
  · exact pyRound2_nonneg (le_max_left _ _)
  · exact pyRound2_le_one (max_le (by norm_num) (min_le_left _ _))
  · exact twoDp_pyRound2 _
  · exact nodup_sortedDedup _

theorem analyze_none {text : String} {o g : Option ProviderClient}
    (h : llmAnalysis text o g = none) : analyze text o g = ruleBasedAnalysis text := by
  unfold analyze
  rw [h]

theorem analyze_some {text : String} {o g : Option ProviderClient}
    {j : BehavioralAnalysisResult} (h : llmAnalysis text o g = some j) :
    analyze text o g =
      { score := pyRound2 (min 10 ((ruleBasedAnalysis text).score * (6/10) + j.score * (4/10)))
        confidence := pyRound2 (min 1 (max (ruleBasedAnalysis text).confidence j.confidence))
        indicators := sortedDedup ((ruleBasedAnalysis text).indicators ++ j.indicators)
        category_hint := pyOrStr j.category_hint (ruleBasedAnalysis text).category_hint } := by
  unfold analyze
  rw [h]

theorem mem_ite_singleton {x s : String} {c : Prop} [Decidable c]
    (h : x ∈ (if c then [s] else ([] : List String))) : x = s := by
  split at h <;> simp_all

theorem mem_ruleIndicators {x text : String} (h : x ∈ ruleIndicators text) :
    x ∈ indicatorVocabulary := by
  unfold ruleIndicators at h
  simp only [List.mem_append] at h
  unfold indicatorVocabulary
  rcases h with ((((h | h) | h) | h) | h) | h <;> rw [mem_ite_singleton h] <;> simp

theorem ruleBasedAnalysis_indicators_sub (text : String) :
    ∀ x ∈ (ruleBasedAnalysis text).indicators, x ∈ indicatorVocabulary := by
  intro x hx
  unfold ruleBasedAnalysis at hx
  split_ifs at hx
  · simp at hx
  · exact mem_ruleIndicators (mem_sortedDedup.mp hx)

/-! Claim theorems for the Signal Fusion Engine. -/

/-- Claim C1: for every input text and every judgment-provider configuration
(hence every judgment result, present or absent), both the rule-only result
and the fused result of analyze have score in [0,10], confidence in [0,1] and
an indicator list without duplicate tags. -/
theorem claim_C1 (text : String) (openai gemini : Option ProviderClient) :
    resultWellFormed (ruleBasedAnalysis text) ∧
      resultWellFormed (analyze text openai gemini) := by
  refine ⟨ruleBasedAnalysis_wf text, ?_⟩
  rcases h : llmAnalysis text openai gemini with _ | j
  · rw [analyze_none h]
    exact ruleBasedAnalysis_wf text
  · obtain ⟨hj0, hj10, hjc0, hjc1, _, _⟩ := llmAnalysis_wf h
    obtain ⟨hr0, hr10, hrc0, hrc1, _⟩ := ruleBasedAnalysis_wf text
    rw [analyze_some h]
    unfold resultWellFormed
    refine ⟨?_, ?_, ?_, ?_, ?_⟩
    · exact pyRound2_nonneg (le_min (by norm_num) (by linarith))
    · exact pyRound2_le_ten (min_le_left _ _)
    · exact pyRound2_nonneg (le_min (by norm_num) (le_trans hrc0 (le_max_left _ _)))
    · exact pyRound2_le_one (min_le_left _ _)
    · exact nodup_sortedDedup _

/-- Claim C2: whenever a judgment result is available, the fused result has
score round(clamp(rule*0.6 + judgment*0.4, 0, 10), 2), confidence
max(rule.confidence, judgment.confidence) clamped to [0,1], indicators the
union of the two indicator sets, and category the judgment category when
present (non-empty) else the rule category. -/
theorem claim_C2 {text : String} {openai gemini : Option ProviderClient}
    {j : BehavioralAnalysisResult} (hl : llmAnalysis text openai gemini = some j) :
    (analyze text openai gemini).score =
      pyRound2 (max 0 (min 10
        ((ruleBasedAnalysis text).score * (6/10) + j.score * (4/10)))) ∧
    (analyze text openai gemini).confidence =
      max 0 (min 1 (max (ruleBasedAnalysis text).confidence j.confidence)) ∧
    (∀ x, x ∈ (analyze text openai gemini).indicators ↔
      x ∈ (ruleBasedAnalysis text).indicators ∨ x ∈ j.indicators) ∧
    (∀ s, j.category_hint = some s → s ≠ "" →
      (analyze text openai gemini).category_hint = some s) ∧
    (j.category_hint = none ∨ j.category_hint = some "" →
      (analyze text openai gemini).category_hint = (ruleBasedAnalysis text).category_hint) := by
  obtain ⟨hj0, hj10, hjc0, hjc1, hjtd, _⟩ := llmAnalysis_wf hl
  obtain ⟨hr0, hr10, hrc0, hrc1, _⟩ := ruleBasedAnalysis_wf text
  rw [analyze_some hl]
  refine ⟨?_, ?_, ?_, ?_, ?_⟩
  · have hC : 0 ≤ (ruleBasedAnalysis text).score * (6/10) + j.score * (4/10) := by linarith
    have hmax : max 0 (min 10 ((ruleBasedAnalysis text).score * (6/10) + j.score * (4/10)))
        = min 10 ((ruleBasedAnalysis text).score * (6/10) + j.score * (4/10)) :=
      max_eq_right (le_min (by norm_num) hC)
    rw [hmax]
  · have hM1 : max (ruleBasedAnalysis text).confidence j.confidence ≤ 1 := max_le hrc1 hjc1
    have hM0 : 0 ≤ max (ruleBasedAnalysis text).confidence j.confidence :=
      le_trans hrc0 (le_max_left _ _)
    have htd : TwoDp (max (ruleBasedAnalysis text).confidence j.confidence) :=
      twoDp_max (ruleBasedAnalysis_conf_twoDp text) hjtd
    show pyRound2 (min 1 (max (ruleBasedAnalysis text).confidence j.confidence)) = _
    rw [min_eq_right hM1, pyRound2_of_twoDp htd, max_eq_right hM0]
  · intro x
    show x ∈ sortedDedup _ ↔ _
    rw [mem_sortedDedup, List.mem_append]
  · intro s hs hne
    show pyOrStr j.category_hint (ruleBasedAnalysis text).category_hint = some s
    rw [hs]
    simp [pyOrStr, hne]
  · intro hcase
    show pyOrStr j.category_hint (ruleBasedAnalysis text).category_hint = _
    rcases hcase with hc | hc <;> rw [hc] <;> simp [pyOrStr]

/-- Claim C2 witness: the fusion equations instantiated on a concrete text and
a concrete credentialed provider returning a parsed judgment payload. -/
theorem claim_C2_witness :
    (analyze "hello" (some exampleProviderC2) none).score =
      pyRound2 (max 0 (min 10
        ((ruleBasedAnalysis "hello").score * (6/10) + exampleJudgmentC2.score * (4/10)))) ∧
    (analyze "hello" (some exampleProviderC2) none).confidence =
      max 0 (min 1 (max (ruleBasedAnalysis "hello").confidence exampleJudgmentC2.confidence)) := by
  have h := @claim_C2 "hello" (some exampleProviderC2) none exampleJudgmentC2 (by decide)
  exact ⟨h.1, h.2.1⟩

/-- Claim C4: the canonical phishing example with no judgment provider yields
the four expected indicators, category PHISHING, score 8.5 and confidence 1. -/
theorem claim_C4 :
    "urgency" ∈ (analyze c4Text none none).indicators ∧
    "authority_impersonation" ∈ (analyze c4Text none none).indicators ∧
    "verification_or_secret_request" ∈ (analyze c4Text none none).indicators ∧
    "external_link_pressure" ∈ (analyze c4Text none none).indicators ∧
    (analyze c4Text none none).category_hint = some "PHISHING" ∧
    (analyze c4Text none none).score = 17/2 ∧
    (analyze c4Text none none).confidence = 1 := by
  decide

/-- Claim C5 counterexample: the judgment evaluator does not validate
indicator tags, so a payload tag outside the six-tag vocabulary reaches the
fused result unchanged. -/
theorem claim_C5_counterexample :
    "bogus_tag" ∈ (analyze "hi" (some exampleProviderC5) none).indicators ∧
    "bogus_tag" ∉ indicatorVocabulary := by
  decide

/-- Claim C5 (amended): every indicator of a rule-only result is drawn from
the six-tag vocabulary; every indicator of a fused result is drawn from the
vocabulary or is a tag contributed verbatim by the judgment result. -/
theorem claim_C5 (text : String) (openai gemini : Option ProviderClient) :
    (∀ x ∈ (ruleBasedAnalysis text).indicators, x ∈ indicatorVocabulary) ∧
    (llmAnalysis text openai gemini = none →
      ∀ x ∈ (analyze text openai gemini).indicators, x ∈ indicatorVocabulary) ∧
    (∀ j, llmAnalysis text openai gemini = some j →
      ∀ x ∈ (analyze text openai gemini).indicators,
        x ∈ indicatorVocabulary ∨ x ∈ j.indicators) := by
  refine ⟨ruleBasedAnalysis_indicators_sub text, ?_, ?_⟩
  · intro h x hx
    rw [analyze_none h] at hx
    exact ruleBasedAnalysis_indicators_sub text x hx
  · intro j hj x hx
    rw [analyze_some hj] at hx
    have hx2 : x ∈ (ruleBasedAnalysis text).indicators ++ j.indicators :=
      mem_sortedDedup.mp hx
    rcases List.mem_append.mp hx2 with h1 | h1
    · exact Or.inl (ruleBasedAnalysis_indicators_sub text x h1)
    · exact Or.inr h1

/-- Claim C5 (amended) witness: the fused-result alternative instantiated at a
provider that injects the out-of-vocabulary tag bogus_tag. -/
theorem claim_C5_witness :
    "bogus_tag" ∈ indicatorVocabulary ∨ "bogus_tag" ∈ exampleJudgmentC5.indicators :=
  (claim_C5 "hi" (some exampleProviderC5) none).2.2 exampleJudgmentC5 (by decide)
    "bogus_tag" (by decide)

/-- Claim C9: on the empty string, analyze returns the zero result (score 0,
confidence 0, no indicators, no category) for every provider configuration. -/
theorem claim_C9 (openai gemini : Option ProviderClient) :
    analyze "" openai gemini = ⟨0, 0, [], none⟩ := by
  have h : llmAnalysis "" openai gemini = none := by
    unfold llmAnalysis
    simp
  rw [analyze_none h]
  unfold ruleBasedAnalysis
  simp

/-! Gate lemmas and claim theorems for the Call Admission Gate. -/

theorem droppedOf_bumpDrop (g : GateState) (st : Stage) :
    droppedOf (bumpDrop g st) st = droppedOf g st + 1 := by
  cases st <;> rfl

theorem droppedOf_withStageCalls (g : GateState) (st st' : Stage) (q : List ℚ) :
    droppedOf (withStageCalls g st q) st' = droppedOf g st' := by
  cases st <;> cases st' <;> rfl

theorem droppedOf_setGlobal (g : GateState) (q : List ℚ) (st : Stage) :
    droppedOf { g with calls_global := q } st = droppedOf g st := by
  cases st <;> rfl

theorem allow_parse_none {g : GateState} {stage : String}
    (hp : parseStage stage = none) (idx : ℤ) (now : ℚ) :
    LLMCallGate.allow g stage idx now = (false, g) := by
  unfold LLMCallGate.allow
  rw [hp]

theorem allow_parse_some {g : GateState} {stage : String} {st : Stage}
    (hp : parseStage stage = some st) (idx : ℤ) (now : ℚ) :
    LLMCallGate.allow g stage idx now =
      (if g.enabled = false then (true, g)
       else if st = Stage.behavior ∧
           behaviorSamplingAllows g.behavior_sample_n (max 0 idx).toNat = false
         then (false, g)
       else
         if g.global_limit ≤ (pruneQ g.calls_global (now - 60)).length then
           (false, bumpDrop (withStageCalls { g with calls_global := pruneQ g.calls_global (now - 60) }
             st (pruneQ (stageCalls g st) (now - 60))) st)
         else if stageLimitOf g st ≤ (pruneQ (stageCalls g st) (now - 60)).length then
           (false, bumpDrop (withStageCalls { g with calls_global := pruneQ g.calls_global (now - 60) }
             st (pruneQ (stageCalls g st) (now - 60))) st)
         else
           (true, withStageCalls { g with calls_global := pruneQ g.calls_global (now - 60) ++ [now] }
             st (pruneQ (stageCalls g st) (now - 60) ++ [now]))) := by
  unfold LLMCallGate.allow
  rw [hp]

/-- Claim C6: for an enabled gate with sampling interval N, a behavior call
passes the sampling pre-filter exactly when the 1-based index is at most 1 or
(index-1) mod N = 0, and a call denied by sampling returns false with the
gate state (queues and drop counters) completely unchanged. -/
theorem claim_C6 (g : GateState) (i : ℤ) (now : ℚ)
    (hen : g.enabled = true) (hN : 1 ≤ g.behavior_sample_n) (hi : 1 ≤ i) :
    (behaviorSamplingAllows g.behavior_sample_n (max 0 i).toNat = true ↔
      (i ≤ 1 ∨ (i - 1) % (g.behavior_sample_n : ℤ) = 0)) ∧
    (behaviorSamplingAllows g.behavior_sample_n (max 0 i).toNat = false →
      LLMCallGate.allow g "behavior" i now = (false, g)) := by
  have hmax : max 0 i = i := max_eq_right (by linarith)
  constructor
  · rw [hmax]
    unfold behaviorSamplingAllows
    split_ifs with h1 h2 <;> simp only [beq_iff_eq, true_iff]
    · have hN1 : g.behavior_sample_n = 1 := le_antisymm h1 hN
      rw [hN1]
      omega
    · omega
    · constructor
      · intro h
        right
        have h' : ((i.toNat - 1 : ℕ) : ℤ) % (g.behavior_sample_n : ℤ) = 0 := by
          exact_mod_cast h
        have he : ((i.toNat - 1 : ℕ) : ℤ) = i - 1 := by omega
        rwa [he] at h'
      · intro h
        rcases h with h | h
        · omega
        · have he : ((i.toNat - 1 : ℕ) : ℤ) = i - 1 := by omega
          have h' : ((i.toNat - 1 : ℕ) : ℤ) % (g.behavior_sample_n : ℤ) = 0 := by
            rw [he]
            exact h
          exact_mod_cast h'
  · intro hs
    have hp : parseStage "behavior" = some Stage.behavior := by rfl
    rw [allow_parse_some hp]
    rw [hen]
    simp [hs]

/-- Claim C6 witness: with sampling interval 3, index 4 passes the pre-filter
and index 2 is denied leaving the gate unchanged. -/
theorem claim_C6_witness :
    behaviorSamplingAllows 3 (max 0 (4 : ℤ)).toNat = true ∧
    LLMCallGate.allow exampleGateC6 "behavior" 2 0 = (false, exampleGateC6) := by
  constructor
  · exact (claim_C6 exampleGateC6 4 0 rfl (by decide) (by decide)).1.mpr (by decide)
  · exact (claim_C6 exampleGateC6 2 0 rfl (by decide) (by decide)).2 (by decide)

/-- Claim C3 counterexample: with the global window already full, a behavior
call at a sampling-denied index is refused without incrementing the behavior
drop counter, contradicting the claim's parenthetical that every further
denied call increments its stage's drop counter. -/
theorem claim_C3_counterexample :
    exampleGateC3.enabled = true ∧
    exampleGateC3.global_limit ≤ (pruneQ exampleGateC3.calls_global (0 - 60)).length ∧
    (LLMCallGate.allow exampleGateC3 "behavior" 2 0).1 = false ∧
    droppedOf (LLMCallGate.allow exampleGateC3 "behavior" 2 0).2 Stage.behavior =
      droppedOf exampleGateC3 Stage.behavior := by
  decide

/-- Claim C3 (amended): for an enabled gate whose pruned global queue already
holds at least the global ceiling, every allow call returns false; the
stage's drop counter is incremented when the call is for a known stage and
passes the behavior sampling pre-filter (sampling-denied and unknown-stage
calls are denied without an increment); and a call is admitted again once the
pruned global and stage queues are below their ceilings. -/
theorem claim_C3 (g : GateState) (stage : String) (idx : ℤ) (now : ℚ)
    (hen : g.enabled = true)
    (hfull : g.global_limit ≤ (pruneQ g.calls_global (now - 60)).length) :
    (LLMCallGate.allow g stage idx now).1 = false ∧
    (∀ st, parseStage stage = some st →
      (st = Stage.behavior →
        behaviorSamplingAllows g.behavior_sample_n (max 0 idx).toNat = true) →
      droppedOf (LLMCallGate.allow g stage idx now).2 st = droppedOf g st + 1) ∧
    (∀ (now' : ℚ) (st : Stage), parseStage stage = some st →
      (st = Stage.behavior →
        behaviorSamplingAllows g.behavior_sample_n (max 0 idx).toNat = true) →
      (pruneQ g.calls_global (now' - 60)).length < g.global_limit →
      (pruneQ (stageCalls g st) (now' - 60)).length < stageLimitOf g st →
      (LLMCallGate.allow g stage idx now').1 = true) := by
  rcases hp : parseStage stage with _ | st
  · refine ⟨by rw [allow_parse_none hp], ?_, ?_⟩
    · intro st h
      exact absurd h (by simp)
    · intro now' st h
      exact absurd h (by simp)
  · have hnotC : (st = Stage.behavior →
        behaviorSamplingAllows g.behavior_sample_n (max 0 idx).toNat = true) →
        ¬ (st = Stage.behavior ∧
          behaviorSamplingAllows g.behavior_sample_n (max 0 idx).toNat = false) := by
      intro hsamp hC
      have h2 := hC.2
      rw [hsamp hC.1] at h2
      exact Bool.noConfusion h2
    refine ⟨?_, ?_, ?_⟩
    · rw [allow_parse_some hp]
      by_cases hC : st = Stage.behavior ∧
          behaviorSamplingAllows g.behavior_sample_n (max 0 idx).toNat = false
      · rw [if_neg (by simp [hen]), if_pos hC]
      · rw [if_neg (by simp [hen]), if_neg hC, if_pos hfull]
    · intro st' hst' hsamp
      obtain rfl : st = st' := Option.some.inj hst'
      rw [allow_parse_some hp]
      rw [if_neg (by simp [hen]), if_neg (hnotC hsamp), if_pos hfull]
      rw [droppedOf_bumpDrop, droppedOf_withStageCalls, droppedOf_setGlobal]
    · intro now' st' hst' hsamp hglt hslt
      obtain rfl : st = st' := Option.some.inj hst'
      rw [allow_parse_some hp]
      rw [if_neg (by simp [hen]), if_neg (hnotC hsamp), if_neg (by omega), if_neg (by omega)]

/-- Claim C3 (amended) witness: a full gate denies and counts a reply call at
time 0, and admits a reply call once the window has advanced to time 61. -/
theorem claim_C3_witness :
    (LLMCallGate.allow exampleGateC3 "reply" 0 0).1 = false ∧
    droppedOf (LLMCallGate.allow exampleGateC3 "reply" 0 0).2 Stage.reply =
      droppedOf exampleGateC3 Stage.reply + 1 ∧
    (LLMCallGate.allow exampleGateC3 "reply" 0 61).1 = true := by
  have h := claim_C3 exampleGateC3 "reply" 0 0 rfl (by decide)
  exact ⟨h.1, h.2.1 Stage.reply rfl (by intro hc; exact absurd hc (by decide)),
    h.2.2 61 Stage.reply rfl (by intro hc; exact absurd hc (by decide)) (by decide) (by decide)⟩

/-! Claim theorems for the Strategy Classifier and the Engagement Finalizer. -/

theorem strategyRank_infer (state : SessionState) (s : ℚ) (d : Bool) (a t : ℕ) :
    strategyRank (infer_strategy_state state (some s) (some d) (some a) (some t)) =
      if s < 3 ∧ d = false then 0
      else if s < 6 ∧ d = false then 1
      else if s < 10 then 2
      else if 3 ≤ a ∨ 5 ≤ t then 3
      else 4 := by
  unfold infer_strategy_state
  simp only [Option.getD_some]
  split_ifs <;> decide

/-- Claim C7: with the detected flag, actionable count and agent turns held
fixed, the tier returned by infer_strategy_state is monotone in the score
under the aggressiveness order Neutral < Suspicious < Extraction Mode <
Intelligence Harvest Mode < High Confidence Scam. -/
theorem claim_C7 (state : SessionState) (d : Bool) (a t : ℕ) (s1 s2 : ℚ)
    (h : s1 ≤ s2) :
    strategyRank (infer_strategy_state state (some s1) (some d) (some a) (some t)) ≤
      strategyRank (infer_strategy_state state (some s2) (some d) (some a) (some t)) := by
  rw [strategyRank_infer, strategyRank_infer]
  split_ifs <;> try norm_num
  all_goals exfalso
  all_goals try simp_all
  all_goals linarith

/-- Claim C7 witness: the monotonicity instantiated at scores 2 and 5 with the
other inputs fixed. -/
theorem claim_C7_witness :
    strategyRank (infer_strategy_state exampleSessionC7 (some 2) (some false) (some 0) (some 0)) ≤
      strategyRank (infer_strategy_state exampleSessionC7 (some 5) (some false) (some 0) (some 0)) :=
  claim_C7 exampleSessionC7 false 0 0 2 5 (by norm_num)

/-- Claim C8: with a detected scam, a session not yet finalized and at least
12 agent turns, should_finalize returns true at every current time, whatever
the other session fields. -/
theorem claim_C8 (state : SessionState) (now : ℚ)
    (h1 : state.scam_detected = true) (h2 : state.finalized = false)
    (h3 : 12 ≤ state.agent_turns) :
    should_finalize state now = true := by
  unfold should_finalize
  rw [if_neg (by simp [h1, h2]), if_pos h3]

/-- Claim C8 witness: the hard cap fires on a minimal session with 12 agent
turns, zero elapsed time and no captured intelligence. -/
theorem claim_C8_witness : should_finalize exampleSessionC8 0 = true :=
  claim_C8 exampleSessionC8 0 rfl rfl (by decide)

/-! Sliding-window counting lemmas for the gate invariant of claim C10. -/

theorem aliveCount_cons (x : ℚ) (xs : List ℚ) (c : ℚ) :
    aliveCount (x :: xs) c = (if c ≤ x then 1 else 0) + aliveCount xs c := by
  unfold aliveCount
  rw [List.filter_cons]
  by_cases h : c ≤ x <;> simp [h, Nat.add_comm]

theorem aliveCount_append (l1 l2 : List ℚ) (c : ℚ) :
    aliveCount (l1 ++ l2) c = aliveCount l1 c + aliveCount l2 c := by
  unfold aliveCount
  rw [List.filter_append, List.length_append]

theorem pruneQ_cons_pos {x : ℚ} (xs : List ℚ) {c : ℚ} (h : x < c) :
    pruneQ (x :: xs) c = pruneQ xs c := by
  unfold pruneQ
  rw [List.dropWhile_cons]
  simp [h]

theorem pruneQ_cons_neg {x : ℚ} (xs : List ℚ) {c : ℚ} (h : ¬ x < c) :
    pruneQ (x :: xs) c = x :: xs := by
  unfold pruneQ
  rw [List.dropWhile_cons]
  simp [h]

theorem aliveCount_pruneQ {l : List ℚ} {c0 c : ℚ} (h : c0 ≤ c) :
    aliveCount (pruneQ l c0) c = aliveCount l c := by
  induction l with
  | nil => rfl
  | cons x xs ih =>
    by_cases hx : x < c0
    · rw [pruneQ_cons_pos xs hx, ih, aliveCount_cons]
      have hcx : ¬ c ≤ x := by linarith
      simp [hcx]
    · rw [pruneQ_cons_neg xs hx]

theorem pruneQ_sublist (l : List ℚ) (c : ℚ) : (pruneQ l c).Sublist l :=
  List.dropWhile_sublist _

theorem pruneQ_sorted {l : List ℚ} (h : List.Sorted (· ≤ ·) l) (c : ℚ) :
    List.Sorted (· ≤ ·) (pruneQ l c) :=
  List.Pairwise.sublist (pruneQ_sublist l c) h

theorem length_pruneQ_sorted {l : List ℚ} (h : List.Sorted (· ≤ ·) l) (c : ℚ) :
    (pruneQ l c).length = aliveCount l c := by
  induction l with
  | nil => rfl
  | cons x xs ih =>
    rw [aliveCount_cons]
    by_cases hx : x < c
    · rw [pruneQ_cons_pos xs hx, ih (List.Sorted.of_cons h)]
      have hcx : ¬ c ≤ x := by linarith
      simp [hcx]
    · rw [pruneQ_cons_neg xs hx]
      have hall : aliveCount xs c = xs.length := by
        unfold aliveCount
        rw [List.filter_eq_self.mpr]
        intro a ha
        have hxa : x ≤ a := (List.sorted_cons.mp h).1 a ha
        simp only [decide_eq_true_eq]
        linarith [not_lt.mp hx]
      rw [hall]
      simp [not_lt.mp hx, Nat.add_comm]

theorem QOk.mono {l : List ℚ} {t t' : ℚ} (h : QOk l t) (ht : t ≤ t') : QOk l t' :=
  ⟨h.1, fun x hx => le_trans (h.2 x hx) ht⟩

theorem QOk.prune {l : List ℚ} {t : ℚ} (h : QOk l t) (c : ℚ) : QOk (pruneQ l c) t :=
  ⟨pruneQ_sorted h.1 c, fun x hx => h.2 x ((pruneQ_sublist l c).subset hx)⟩

theorem QOk.push {l : List ℚ} {t t' : ℚ} (h : QOk l t) (ht : t ≤ t') :
    QOk (l ++ [t']) t' := by
  constructor
  · show List.Pairwise (· ≤ ·) (l ++ [t'])
    rw [List.pairwise_append]
    refine ⟨h.1, List.pairwise_singleton _ _, ?_⟩
    intro x hx y hy
    rw [List.mem_singleton] at hy
    subst hy
    exact le_trans (h.2 x hx) ht
  · intro x hx
    rcases List.mem_append.mp hx with h1 | h1
    · exact le_trans (h.2 x h1) ht
    · rw [List.mem_singleton] at h1
      subst h1
      exact le_refl _

/-! Gate invariant preservation and claim C10. -/

theorem gateInv_mono {g : GateState} {t t' : ℚ} (h : GateInv g t) (ht : t ≤ t') :
    GateInv g t' := by
  obtain ⟨h1, h2, h3, h4, h5⟩ := h
  exact ⟨h1.mono ht, h2.mono ht, h3.mono ht, h4.mono ht, fun c hc => h5 c (by linarith)⟩

theorem gateInv_bumpDrop {g : GateState} {t : ℚ} (h : GateInv g t) (st : Stage) :
    GateInv (bumpDrop g st) t := by
  cases st <;> exact h

theorem gateInv_snap {g : GateState} {t : ℚ} (h : GateInv g t) {now : ℚ}
    (ht : t ≤ now) : GateInv (LLMCallGate.snapshot g now).2 now := by
  obtain ⟨h1, h2, h3, h4, h5⟩ := h
  unfold LLMCallGate.snapshot
  refine ⟨(h1.prune _).mono ht, (h2.prune _).mono ht, (h3.prune _).mono ht,
    (h4.prune _).mono ht, ?_⟩
  intro c hc
  show aliveCount (pruneQ g.calls_global (now - 60)) c = _
  rw [aliveCount_pruneQ (by linarith), aliveCount_pruneQ (by linarith),
    aliveCount_pruneQ (by linarith), aliveCount_pruneQ (by linarith)]
  exact h5 c (by linarith)

theorem gateInv_allow {g : GateState} {t : ℚ} (h : GateInv g t) (stage : String)
    (idx : ℤ) {now : ℚ} (ht : t ≤ now) :
    GateInv (LLMCallGate.allow g stage idx now).2 now := by
  rcases hp : parseStage stage with _ | st
  · rw [allow_parse_none hp]
    exact gateInv_mono h ht
  · rw [allow_parse_some hp]
    by_cases he : g.enabled = false
    · rw [if_pos he]
      exact gateInv_mono h ht
    rw [if_neg he]
    by_cases hC : st = Stage.behavior ∧
        behaviorSamplingAllows g.behavior_sample_n (max 0 idx).toNat = false
    · rw [if_pos hC]
      exact gateInv_mono h ht
    rw [if_neg hC]
    obtain ⟨h1, h2, h3, h4, h5⟩ := h
    have hbase : GateInv (withStageCalls
        { g with calls_global := pruneQ g.calls_global (now - 60) } st
        (pruneQ (stageCalls g st) (now - 60))) now := by
      cases st
      · refine ⟨(h1.prune _).mono ht, (h2.prune _).mono ht, h3.mono ht, h4.mono ht, ?_⟩
        intro c hc
        simp only [withStageCalls, stageCalls]
        rw [aliveCount_pruneQ (by linarith), aliveCount_pruneQ (by linarith)]
        exact h5 c (by linarith)
      · refine ⟨(h1.prune _).mono ht, h2.mono ht, (h3.prune _).mono ht, h4.mono ht, ?_⟩
        intro c hc
        simp only [withStageCalls, stageCalls]
        rw [aliveCount_pruneQ (by linarith), aliveCount_pruneQ (by linarith)]
        exact h5 c (by linarith)
      · refine ⟨(h1.prune _).mono ht, h2.mono ht, h3.mono ht, (h4.prune _).mono ht, ?_⟩
        intro c hc
        simp only [withStageCalls, stageCalls]
        rw [aliveCount_pruneQ (by linarith), aliveCount_pruneQ (by linarith)]
        exact h5 c (by linarith)
    split_ifs with hg hs
    · exact gateInv_bumpDrop hbase st
    · exact gateInv_bumpDrop hbase st
    · cases st
      · refine ⟨((h1.prune _).push ht), ((h2.prune _).push ht), h3.mono ht, h4.mono ht, ?_⟩
        intro c hc
        simp only [withStageCalls, stageCalls]
        rw [aliveCount_append, aliveCount_append, aliveCount_pruneQ (by linarith),
          aliveCount_pruneQ (by linarith)]
        have he5 := h5 c (by linarith)
        omega
      · refine ⟨((h1.prune _).push ht), h2.mono ht, ((h3.prune _).push ht), h4.mono ht, ?_⟩
        intro c hc
        simp only [withStageCalls, stageCalls]
        rw [aliveCount_append, aliveCount_append, aliveCount_pruneQ (by linarith),
          aliveCount_pruneQ (by linarith)]
        have he5 := h5 c (by linarith)
        omega
      · refine ⟨((h1.prune _).push ht), h2.mono ht, h3.mono ht, ((h4.prune _).push ht), ?_⟩
        intro c hc
        simp only [withStageCalls, stageCalls]
        rw [aliveCount_append, aliveCount_append, aliveCount_pruneQ (by linarith),
          aliveCount_pruneQ (by linarith)]
        have he5 := h5 c (by linarith)
        omega

theorem gateInv_init (enabled : Bool) (a b c d e : ℤ) (t : ℚ) :
    GateInv (initGate enabled a b c d e) t := by
  unfold initGate GateInv QOk
  refine ⟨⟨List.sorted_nil, by simp⟩, ⟨List.sorted_nil, by simp⟩,
    ⟨List.sorted_nil, by simp⟩, ⟨List.sorted_nil, by simp⟩, fun c hc => rfl⟩

theorem gateInv_runOp {g : GateState} {t : ℚ} (h : GateInv g t) (op : GateOp)
    (ht : t ≤ op.time) : GateInv (runOp g op) op.time := by
  cases op with
  | allowOp s i tt => exact gateInv_allow h s i ht
  | snapOp tt => exact gateInv_snap h ht

theorem gateInv_runOps {g : GateState} {t : ℚ} (h : GateInv g t) {ops : List GateOp}
    (hops : timesFrom t ops) : GateInv (runOps g ops) (endTime t ops) := by
  induction ops generalizing g t with
  | nil => exact h
  | cons op rest ih =>
    obtain ⟨hle, hrest⟩ := hops
    exact ih (gateInv_runOp h op hle) hrest

theorem endTime_le {t now : ℚ} {ops : List GateOp} (hops : timesFrom t ops)
    (hnow : ∀ op ∈ ops, op.time ≤ now) (ht : t ≤ now) : endTime t ops ≤ now := by
  induction ops generalizing t with
  | nil => exact ht
  | cons op rest ih =>
    exact ih hops.2 (fun o ho => hnow o (List.mem_cons_of_mem _ ho))
      (hnow op (List.mem_cons_self _ _))

theorem chain_timesFrom {ops : List GateOp}
    (h : List.Chain' (fun a b => a.time ≤ b.time) ops) :
    ∀ t : ℚ, (∀ op ∈ ops.head?, t ≤ op.time) → timesFrom t ops := by
  induction ops with
  | nil =>
    intro t _
    trivial
  | cons op rest ih =>
    intro t hhead
    obtain ⟨hh, hc⟩ := List.chain'_cons'.mp h
    exact ⟨hhead op rfl, ih hc op.time hh⟩

theorem snapshot_sum {g : GateState} {t now : ℚ} (h : GateInv g t) (ht : t ≤ now) :
    (LLMCallGate.snapshot g now).1.in_window_global =
      (LLMCallGate.snapshot g now).1.in_window_reply +
      (LLMCallGate.snapshot g now).1.in_window_behavior +
      (LLMCallGate.snapshot g now).1.in_window_extraction := by
  obtain ⟨h1, h2, h3, h4, h5⟩ := h
  show (pruneQ g.calls_global (now - 60)).length =
    (pruneQ g.calls_reply (now - 60)).length + (pruneQ g.calls_behavior (now - 60)).length +
      (pruneQ g.calls_extraction (now - 60)).length
  rw [length_pruneQ_sorted h1.1, length_pruneQ_sorted h2.1, length_pruneQ_sorted h3.1,
    length_pruneQ_sorted h4.1]
  exact h5 (now - 60) (by linarith)

/-- Claim C10: for any sequence of allow and snapshot calls with non-decreasing
timestamps on a freshly constructed gate, every snapshot reports a global
in-window count equal to the sum of the reply, behavior and extraction
in-window counts. -/
theorem claim_C10 (enabled : Bool) (grpm rrpm brpm erpm sn : ℤ)
    (ops : List GateOp) (now : ℚ)
    (hchain : List.Chain' (fun a b => a.time ≤ b.time) ops)
    (hnow : ∀ op ∈ ops, op.time ≤ now) :
    (LLMCallGate.snapshot (runOps (initGate enabled grpm rrpm brpm erpm sn) ops) now).1.in_window_global =
      (LLMCallGate.snapshot (runOps (initGate enabled grpm rrpm brpm erpm sn) ops) now).1.in_window_reply +
      (LLMCallGate.snapshot (runOps (initGate enabled grpm rrpm brpm erpm sn) ops) now).1.in_window_behavior +
      (LLMCallGate.snapshot (runOps (initGate enabled grpm rrpm brpm erpm sn) ops) now).1.in_window_extraction := by
  cases ops with
  | nil => exact snapshot_sum (gateInv_init enabled grpm rrpm brpm erpm sn now) le_rfl
  | cons op rest =>
    obtain ⟨hh, hc⟩ := List.chain'_cons'.mp hchain
    have h0 : timesFrom op.time (op :: rest) := ⟨le_refl _, chain_timesFrom hc op.time hh⟩
    have hinv := gateInv_runOps (gateInv_init enabled grpm rrpm brpm erpm sn op.time) h0
    have hend : endTime op.time (op :: rest) ≤ now :=
      endTime_le h0 hnow (hnow op (List.mem_cons_self _ _))
    exact snapshot_sum hinv hend

/-- Claim C10 witness: a concrete trace of admissions across the three stages
with an interleaved snapshot, checked at time 30. -/
theorem claim_C10_witness :
    (LLMCallGate.snapshot (runOps (initGate true 100 10 10 10 3) exampleOpsC10) 30).1.in_window_global =
      (LLMCallGate.snapshot (runOps (initGate true 100 10 10 10 3) exampleOpsC10) 30).1.in_window_reply +
      (LLMCallGate.snapshot (runOps (initGate true 100 10 10 10 3) exampleOpsC10) 30).1.in_window_behavior +
      (LLMCallGate.snapshot (runOps (initGate true 100 10 10 10 3) exampleOpsC10) 30).1.in_window_extraction :=
  claim_C10 true 100 10 10 10 3 exampleOpsC10 30
    (by simp [exampleOpsC10, List.chain'_cons, GateOp.time]; norm_num) (by decide)

end AgentHoneypot
